import Mathlib

/-!
Verification of the single-select selection engine in `src/app.py`
(Interoperability Needs Analysis & System Evaluation worksheet).

The app keeps all checkbox values in Streamlit's session state, a string-keyed
dictionary of booleans.  We embed that dictionary as a function `St := String → Bool`
(missing keys read as `false`, matching `st.session_state.get`), and embed one
execution of the script body (the part that resolves the two single-select
groups) as the function `runScript` below.  All data tables are transcribed
verbatim from the source.
-/

/-- One row of the Part 1 "Interface Planning" table (`PLAN_ROWS` in app.py). -/
structure PlanRow where
  Gap : String
  Description : String
  SuggestedInterfaceType : String
  SuggestedFix : String
  Reference : String
deriving DecidableEq

/-- One row of the Part 2 "Integrity/Security Focus" table (`INTEGRITY_ROWS`). -/
structure IntegrityRow where
  Area : String
  PlainMeaning : String
  LikelyGap : String
  Improvement : String
  Standards : String
deriving DecidableEq

/-- `PLAN_ROWS` from app.py, lines 134-170. -/
def PLAN_ROWS : List PlanRow := [
  ⟨"Data Silos",
   "EHR and PACS store data separately; clinicians must open two systems.",
   "Interface Engine (Middleware)",
   "Add/Optimize Interface Engine",
   "CMS Criterion 3 – Data Availability"⟩,
  ⟨"Inconsistent Patient IDs",
   "IDs differ in format/structure (e.g., “12345” vs “0012345”).",
   "Interface Engine (Middleware)",
   "Implement MPI",
   "CMS Criterion 5 – Identity & Trust"⟩,
  ⟨"Missing Clinical Context",
   "Imaging data lacks clinical notes or order linkage.",
   "Interface Engine (Middleware)",
   "Map HL7→DICOM Metadata",
   "ONC §170.315(b) – Transitions of Care"⟩,
  ⟨"No FHIR Connection",
   "Legacy EHR cannot use FHIR APIs for modern data exchange.",
   "FHIR API",
   "Enable/Upgrade EHR FHIR",
   "ONC §170.315(g)(10) – API Exchange"⟩,
  ⟨"Data Integrity & Security",
   "Lack of audit trails or accuracy checks between systems.",
   "Interface Engine (Middleware)",
   "Enable audit logs & integrity checks; shared audit trail",
   "ONC §170.315(d)(9); CMS Criterion 5 – Identity & Trust"⟩]

/-- `INTEGRITY_ROWS` from app.py, lines 172-201. -/
def INTEGRITY_ROWS : List IntegrityRow := [
  ⟨"Data Accuracy (Integrity)",
   "Ensure information stays correct and unchanged during transfer/storage.",
   "EHR/PACS show mismatched IDs/dates; altered payloads not detected.",
   "Enable message checksums/hashes; verify accession/MRN on receipt.",
   "ONC §170.315(d)(9); HIPAA 164.312(c)(1)"⟩,
  ⟨"Access Tracking (Audit Logs)",
   "Record who viewed/edited data to support privacy & accountability.",
   "Separate, incomplete audit trails; clocks not synchronized.",
   "Unified audit (engine/SIEM), unique IDs, NTP time sync, regular review.",
   "ONC §170.315(d); HIPAA 164.312(b); CMS Identity/Security/Trust"⟩,
  ⟨"Error Detection & Alerts",
   "Detect and surface failed transfers quickly.",
   "Orders/results fail silently; no retry queues or alerts.",
   "ACK/NACK monitoring, retries, routed alerts to on-call IT/imaging.",
   "AHRQ Evaluation (data quality); supports CMS Data Availability"⟩,
  ⟨"Patient Identity Management (MPI)",
   "One accurate identity across systems.",
   "Duplicate/mismatched MRNs; weak demographic matching.",
   "Implement/strengthen MPI; matching thresholds; periodic deduping.",
   "CMS Identity & Trust"⟩]

/-- `RECOMMENDED_INTEGRITY` from app.py, lines 203-209: gap → recommended area. -/
def RECOMMENDED_INTEGRITY : List (String × String) := [
  ("Data Silos", "Access Tracking (Audit Logs)"),
  ("Inconsistent Patient IDs", "Patient Identity Management (MPI)"),
  ("Missing Clinical Context", "Data Accuracy (Integrity)"),
  ("No FHIR Connection", "Error Detection & Alerts"),
  ("Data Integrity & Security", "Data Accuracy (Integrity)")]

/-- Characters kept verbatim by `slug` (the regex class `[A-Za-z0-9_]`). -/
def isWordChar (c : Char) : Bool :=
  ('A' ≤ c && c ≤ 'Z') || ('a' ≤ c && c ≤ 'z') || ('0' ≤ c && c ≤ '9') || c == '_'

/-- Replace each maximal run of non-word characters by a single underscore,
the behaviour of the re.sub call in the source (pattern: one or more
characters outside A-Z, a-z, 0-9 and underscore; replacement: underscore).
The boolean records whether we are inside a non-word run. -/
def slugAux : Bool → List Char → List Char
  | _, [] => []
  | inRun, c :: cs =>
    if isWordChar c then c :: slugAux false cs
    else if inRun then slugAux true cs
    else '_' :: slugAux true cs

/-- `slug` from app.py line 487-489. -/
def slug (s : String) : String := String.mk (slugAux false s.data)

example : slug "Data Integrity & Security" = "Data_Integrity_Security" := by decide

/-! ### Session state model -/

/-- Streamlit session state restricted to boolean checkbox values:
`st.session_state.get(k)` with a missing key is falsy, so we model the
dictionary as a total function with default `false`. -/
def St : Type := String → Bool

/-- Read a key (`st.session_state.get(k)`, falsy default). -/
def stGet (σ : St) (k : String) : Bool := σ k

/-- Write a key (`st.session_state[k] = b`). -/
def stSet (σ : St) (k : String) (b : Bool) : St :=
  fun k2 => if k2 = k then b else σ k2

/-- The fresh session state: every checkbox reads as unchecked. -/
def initState : St := fun _ => false

/-- Checkbox key for plan row `i`: the string plan_row_, then the index, then
an underscore and the slug of the row Gap. -/
def planKey (i : Nat) (gap : String) : String :=
  "plan_row_" ++ toString i ++ "_" ++ slug gap

/-- Checkbox key for integrity row `i`: the string p2_integrity_, then the
index, then an underscore and the slug of the row Area. -/
def integKey (i : Nat) (area : String) : String :=
  "p2_integrity_" ++ toString i ++ "_" ++ slug area

/-- All plan checkbox keys, in display order. -/
def planKeys : List String := PLAN_ROWS.enum.map fun p => planKey p.1 p.2.Gap

/-- All integrity checkbox keys, in display order. -/
def integKeys : List String := INTEGRITY_ROWS.enum.map fun p => integKey p.1 p.2.Area

/-- `reset_other_checkboxes` from app.py lines 491-495: iterate over
`checked_keys` and uncheck every key other than `keep_key` that is set. -/
def reset_other_checkboxes (σ : St) (checked_keys : List String) (keep_key : String) : St :=
  match checked_keys with
  | [] => σ
  | k :: ks =>
      reset_other_checkboxes
        (if k ≠ keep_key ∧ σ k = true then stSet σ k false else σ) ks keep_key

/-- The single-select enforcement pattern from app.py lines 631-634 and 746-749:
collect the checked keys of a group and, when more than one is checked, keep
the first and uncheck the rest. -/
def enforceSingle (σ : St) (keys : List String) : St :=
  match keys.filter σ with
  | k0 :: k1 :: rest => reset_other_checkboxes σ (k0 :: k1 :: rest) k0
  | _ => σ

/-- `plan_selected` from app.py lines 636-641: the first plan row whose
checkbox is set in session state. -/
def plan_selected (σ : St) : Option PlanRow :=
  (PLAN_ROWS.enum.find? fun p => σ (planKey p.1 p.2.Gap)).map Prod.snd

/-- `selected_area` as computed by the loop at app.py lines 714-727: each row
whose checkbox is set overwrites the accumulator, so the result is the last
set row in display order. -/
def selected_area (σ : St) : Option String :=
  INTEGRITY_ROWS.enum.foldl
    (fun acc p => if σ (integKey p.1 p.2.Area) then some p.2.Area else acc) none

/-- `RECOMMENDED_INTEGRITY.get` (app.py line 684): dictionary lookup with a
`None` default. -/
def lookupRecommended (gap : String) : Option String :=
  RECOMMENDED_INTEGRITY.lookup gap

/-- `recommended_area` from app.py line 684:
`RECOMMENDED_INTEGRITY.get(plan_selected["Gap"]) if plan_selected else None`. -/
def recommended_area (σ : St) : Option String :=
  match plan_selected σ with
  | some row => lookupRecommended row.Gap
  | none => none

/-- The observable results of one run of the script body over the two groups. -/
structure RunResult where
  state : St
  plan_selected : Option PlanRow
  plan_conflict : Bool
  recommended_area : Option String
  selected_area : Option String
  integ_conflict : Bool
  p2_integrity : String

/-- One execution of the selection-resolving part of the script body
(app.py lines 616-751), in source order:

1. collect the checked plan keys; if more than one, warn (`plan_conflict`)
   and keep only the first (lines 616-634);
2. `plan_selected` = first plan row still checked (lines 636-641);
3. `recommended_area` = `RECOMMENDED_INTEGRITY.get(plan_selected["Gap"])`
   when a plan row is selected, else `None` (line 684);
4. the integrity loop reads the (plan-corrected) state: it collects the
   checked integrity keys and sets `selected_area` to the last checked row
   (lines 714-727);
5. if more than one integrity key is checked, warn (`integ_conflict`) and
   keep only the first (lines 746-749);
6. `p2_integrity` = `selected_area` if set, else `recommended_area`, else
   the placeholder `"— select —"` (line 751). -/
def runScript (σ : St) : RunResult :=
  let plan_checked := planKeys.filter σ
  let σ1 := enforceSingle σ planKeys
  let ps := plan_selected σ1
  let recArea := recommended_area σ1
  let selArea := selected_area σ1
  let integ_checked := integKeys.filter σ1
  let σ2 := enforceSingle σ1 integKeys
  ⟨σ2, ps, decide (1 < plan_checked.length), recArea, selArea,
   decide (1 < integ_checked.length),
   selArea.getD (recArea.getD "— select —")⟩

/-- "Use recommended" button handler (app.py lines 689-693): set every
integrity checkbox to whether its row is the recommended area. -/
def useRecommended (σ : St) (rec : String) : St :=
  INTEGRITY_ROWS.enum.foldl
    (fun s p => stSet s (integKey p.1 p.2.Area) (p.2.Area == rec)) σ

/-- "Clear selection" button handler (app.py lines 695-698): uncheck every
integrity checkbox. -/
def clearSelection (σ : St) : St :=
  INTEGRITY_ROWS.enum.foldl
    (fun s p => stSet s (integKey p.1 p.2.Area) false) σ

/-- A user click on the integrity checkbox carrying identifier `area`:
flip that row's key.  An identifier matching no row has no checkbox, so
nothing is written. -/
def toggleInteg (σ : St) (area : String) : St :=
  match INTEGRITY_ROWS.enum.find? (fun p => p.2.Area == area) with
  | some p => stSet σ (integKey p.1 p.2.Area) (! σ (integKey p.1 p.2.Area))
  | none => σ

/-- A user click on the plan checkbox carrying identifier `gap`. -/
def togglePlan (σ : St) (gap : String) : St :=
  match PLAN_ROWS.enum.find? (fun p => p.2.Gap == gap) with
  | some p => stSet σ (planKey p.1 p.2.Gap) (! σ (planKey p.1 p.2.Gap))
  | none => σ

/-- Write an observed batch of checkbox booleans into a group's keys. -/
def writeBatch (σ : St) (keys : List String) (bs : List Bool) : St :=
  (keys.zip bs).foldl (fun s p => stSet s p.1 p.2) σ

/-- `sel_or_dash` from app.py lines 267-268: keep a truthy value that is not
one of the on-page placeholders, otherwise print the em dash. -/
def sel_or_dash (val : String) : String :=
  if val ≠ "" ∧ val ≠ "— select —" ∧ val ≠ "— choose —" then val else "—"

/-- The `plan_gap` entry of the `selections` dict (app.py lines 806-815). -/
def exportPlanGap (σ : St) : String :=
  match (runScript σ).plan_selected with
  | some row => row.Gap
  | none => "— choose —"

example : planKeys = ["plan_row_0_Data_Silos", "plan_row_1_Inconsistent_Patient_IDs",
  "plan_row_2_Missing_Clinical_Context", "plan_row_3_No_FHIR_Connection",
  "plan_row_4_Data_Integrity_Security"] := by decide

example : integKeys = ["p2_integrity_0_Data_Accuracy_Integrity_",
  "p2_integrity_1_Access_Tracking_Audit_Logs_",
  "p2_integrity_2_Error_Detection_Alerts",
  "p2_integrity_3_Patient_Identity_Management_MPI_"] := by decide

example :
    (runScript (stSet (stSet initState "p2_integrity_0_Data_Accuracy_Integrity_" true)
      "p2_integrity_1_Access_Tracking_Audit_Logs_" true)).p2_integrity =
    "Access Tracking (Audit Logs)" := by decide

example :
    integKeys.map (runScript (stSet (stSet initState "p2_integrity_0_Data_Accuracy_Integrity_" true)
      "p2_integrity_1_Access_Tracking_Audit_Logs_" true)).state =
    [true, false, false, false] := by decide

/-! ### The conflict-resolution policy as described by the spec -/

/-- Modelled from the spec's conflict-resolution policy, for comparison with
the code: "retain the first Option in the group's fixed ordering that reports
true; force all others in that same batch to false". -/
def specKeepFirstTrue : List Bool → List Bool
  | [] => []
  | b :: bs => if b then true :: bs.map (fun _ => false) else false :: specKeepFirstTrue bs

/-! ### Pointwise behaviour of the state updates -/

theorem stSet_self (σ : St) (k : String) (b : Bool) : stSet σ k b k = b := by
  simp [stSet]

theorem stSet_other (σ : St) (k k2 : String) (b : Bool) (h : k2 ≠ k) :
    stSet σ k b k2 = σ k2 := by
  simp [stSet, h]

theorem reset_other_checkboxes_get (checked_keys : List String) (keep_key : String)
    (σ : St) (k : String) :
    reset_other_checkboxes σ checked_keys keep_key k =
      if k ∈ checked_keys ∧ k ≠ keep_key then false else σ k := by
  induction checked_keys generalizing σ with
  | nil => simp [reset_other_checkboxes]
  | cons c cks ih =>
    have hstep : ∀ σ : St,
        (if c ≠ keep_key ∧ σ c = true then stSet σ c false else σ) k =
          if k = c ∧ k ≠ keep_key then false else σ k := by
      intro σ
      by_cases hc : k = c
      · subst hc
        by_cases hk : k = keep_key
        · subst hk; simp
        · by_cases hσ : σ k = true
          · simp [hk, hσ, stSet_self]
          · have hσ2 : σ k = false := by
              cases h : σ k
              · rfl
              · exact absurd h hσ
            simp [hσ2, hk]
      · by_cases hcond : c ≠ keep_key ∧ σ c = true
        · simp [hcond, stSet_other σ c k false hc, hc]
        · simp [hcond, hc]
    rw [reset_other_checkboxes, ih, hstep]
    by_cases hk : k = keep_key
    · simp [hk]
    · simp only [List.mem_cons, ne_eq, hk, not_false_iff, and_true]
      by_cases h1 : k ∈ cks
      · simp [h1]
      · by_cases h2 : k = c <;> simp [h1, h2]

/-- When at most one key is checked the code leaves the state alone, and when
several are checked it resets all but the first checked one; both cases are an
instance of `reset_other_checkboxes` keyed on the head of the checked list. -/
theorem enforceSingle_eq_reset (σ : St) (keys : List String) :
    enforceSingle σ keys =
      reset_other_checkboxes σ (keys.filter σ) ((keys.filter σ).headD "") := by
  unfold enforceSingle
  cases hfil : keys.filter σ with
  | nil => rfl
  | cons k0 tl =>
    cases tl with
    | nil =>
      funext k
      rw [reset_other_checkboxes_get]
      by_cases hk : k = k0 <;> simp [hk]
    | cons k1 rest => rfl

theorem enforceSingle_get (σ : St) (keys : List String) (k : String) :
    enforceSingle σ keys k =
      if k ∈ keys.filter σ ∧ k ≠ (keys.filter σ).headD "" then false else σ k := by
  rw [enforceSingle_eq_reset, reset_other_checkboxes_get]

theorem enforceSingle_not_mem (σ : St) (keys : List String) (k : String)
    (h : k ∉ keys) : enforceSingle σ keys k = σ k := by
  rw [enforceSingle_get]
  have hnot : k ∉ keys.filter σ := fun hmem => h (List.mem_of_mem_filter hmem)
  simp [hnot]

theorem map_all_false (bs : List Bool) : (bs.map fun _ => false).filter id = [] := by
  induction bs with
  | nil => rfl
  | cons b bs ih => simp

/-- The observable projections of `runScript`, unfolded once. -/
theorem runScript_state (σ : St) :
    (runScript σ).state = enforceSingle (enforceSingle σ planKeys) integKeys := rfl

theorem runScript_plan_selected (σ : St) :
    (runScript σ).plan_selected = plan_selected (enforceSingle σ planKeys) := rfl

theorem runScript_recommended_area (σ : St) :
    (runScript σ).recommended_area = recommended_area (enforceSingle σ planKeys) := rfl

theorem runScript_selected_area (σ : St) :
    (runScript σ).selected_area = selected_area (enforceSingle σ planKeys) := rfl

theorem runScript_plan_conflict (σ : St) :
    (runScript σ).plan_conflict = decide (1 < (planKeys.filter σ).length) := rfl

theorem runScript_integ_conflict (σ : St) :
    (runScript σ).integ_conflict =
      decide (1 < (integKeys.filter (enforceSingle σ planKeys)).length) := rfl

theorem runScript_p2_integrity (σ : St) :
    (runScript σ).p2_integrity =
      ((runScript σ).selected_area).getD
        (((runScript σ).recommended_area).getD "— select —") := rfl

theorem planKeys_nodup : planKeys.Nodup := by decide

theorem integKeys_nodup : integKeys.Nodup := by decide

theorem integKeys_not_planKeys : ∀ k ∈ integKeys, k ∉ planKeys := by decide

theorem planKeys_not_integKeys : ∀ k ∈ planKeys, k ∉ integKeys := by decide

/-- The code's single-select enforcement, viewed over a group's keys in display
order, realises exactly the spec's "keep the first true, force the rest to
false" policy. -/
theorem enforceSingle_map (keys : List String) (σ : St) (hnd : keys.Nodup) :
    keys.map (enforceSingle σ keys) = specKeepFirstTrue (keys.map σ) := by
  induction keys with
  | nil => rfl
  | cons c keys ih =>
    have hc : c ∉ keys := (List.nodup_cons.mp hnd).1
    have hnd2 : keys.Nodup := (List.nodup_cons.mp hnd).2
    cases hσc : σ c with
    | false =>
      have hfilc : (c :: keys).filter σ = keys.filter σ := by
        simp [List.filter_cons, hσc]
      have henf : enforceSingle σ (c :: keys) = enforceSingle σ keys := by
        unfold enforceSingle; rw [hfilc]
      have hatc : enforceSingle σ keys c = σ c := enforceSingle_not_mem σ keys c hc
      rw [List.map_cons, henf, hatc, List.map_cons, hσc]
      rw [show specKeepFirstTrue (false :: keys.map σ) =
        false :: specKeepFirstTrue (keys.map σ) by simp [specKeepFirstTrue]]
      rw [ih hnd2]
    | true =>
      cases hfil : keys.filter σ with
      | nil =>
        have hfil2 : (c :: keys).filter σ = [c] := by
          simp [List.filter_cons, hσc, hfil]
        have hid : enforceSingle σ (c :: keys) = σ := by
          unfold enforceSingle; rw [hfil2]
        have hall : ∀ k ∈ keys, σ k = false := by
          intro k hk
          have := List.filter_eq_nil_iff.mp hfil k hk
          cases h : σ k
          · rfl
          · exact absurd h this
        rw [hid, List.map_cons, hσc]
        rw [show specKeepFirstTrue (true :: keys.map σ) =
          true :: (keys.map σ).map (fun _ => false) by simp [specKeepFirstTrue]]
        rw [List.map_map]
        exact congrArg _ (List.map_congr_left fun k hk => (hall k hk).symm ▸ rfl)
      | cons k1 rest =>
        have hfil2 : (c :: keys).filter σ = c :: k1 :: rest := by
          simp [List.filter_cons, hσc, hfil]
        have hreset : enforceSingle σ (c :: keys) =
            reset_other_checkboxes σ (c :: k1 :: rest) c := by
          unfold enforceSingle; rw [hfil2]
        have hatc : enforceSingle σ (c :: keys) c = true := by
          rw [hreset, reset_other_checkboxes_get]
          simp [hσc]
        have hatk : ∀ k ∈ keys, enforceSingle σ (c :: keys) k = false := by
          intro k hk
          have hkc : k ≠ c := fun h => hc (h ▸ hk)
          rw [hreset, reset_other_checkboxes_get]
          cases hσk : σ k with
          | true =>
            have : k ∈ keys.filter σ := List.mem_filter.mpr ⟨hk, hσk⟩
            rw [hfil] at this
            simp [this, hkc]
          | false =>
            have hnotf : k ∉ k1 :: rest := by
              rw [← hfil]
              intro hmem
              have := List.of_mem_filter hmem
              rw [hσk] at this
              exact absurd this (by simp)
            have : k ∉ c :: k1 :: rest := by
              intro hmem
              rcases List.mem_cons.mp hmem with rfl | hmem2
              · exact hkc rfl
              · exact hnotf hmem2
            simp [this, hσk]
        rw [List.map_cons, hatc, List.map_cons, hσc]
        rw [show specKeepFirstTrue (true :: keys.map σ) =
          true :: (keys.map σ).map (fun _ => false) by simp [specKeepFirstTrue]]
        rw [List.map_map]
        exact congrArg _ (List.map_congr_left fun k hk => hatk k hk)

/-! ### Which keys each computation reads and writes -/

theorem enum_snd_mem_aux {α : Type} (l : List α) (n : Nat) (p : Nat × α)
    (h : p ∈ l.enumFrom n) : p.2 ∈ l := by
  induction l generalizing n with
  | nil => cases h
  | cons a l ih =>
    rw [List.enumFrom] at h
    rcases List.mem_cons.mp h with rfl | h2
    · exact List.mem_cons_self a l
    · exact List.mem_cons_of_mem a (ih _ h2)

theorem enum_snd_mem {α : Type} (l : List α) (p : Nat × α) (h : p ∈ l.enum) : p.2 ∈ l :=
  enum_snd_mem_aux l 0 p h

theorem find?_congr_own {α : Type} (l : List α) (p q : α → Bool)
    (h : ∀ a ∈ l, p a = q a) : l.find? p = l.find? q := by
  induction l with
  | nil => rfl
  | cons a l ih =>
    cases hq : q a with
    | true =>
      rw [List.find?_cons_of_pos _ ((h a (List.mem_cons_self a l)).trans hq),
          List.find?_cons_of_pos _ hq]
    | false =>
      rw [List.find?_cons_of_neg _ (by simp [(h a (List.mem_cons_self a l)).trans hq]),
          List.find?_cons_of_neg _ (by simp [hq])]
      exact ih fun b hb => h b (List.mem_cons_of_mem a hb)

theorem plan_selected_congr (σ1 σ2 : St) (h : ∀ k ∈ planKeys, σ1 k = σ2 k) :
    plan_selected σ1 = plan_selected σ2 := by
  unfold plan_selected
  rw [find?_congr_own _ _ _ fun p hp => h _ (List.mem_map_of_mem _ hp)]

theorem recommended_area_congr (σ1 σ2 : St) (h : ∀ k ∈ planKeys, σ1 k = σ2 k) :
    recommended_area σ1 = recommended_area σ2 := by
  unfold recommended_area
  rw [plan_selected_congr σ1 σ2 h]

theorem foldl_sel_congr (l : List (Nat × IntegrityRow)) (σ1 σ2 : St)
    (h : ∀ p ∈ l, σ1 (integKey p.1 p.2.Area) = σ2 (integKey p.1 p.2.Area)) :
    ∀ acc : Option String,
      l.foldl (fun acc p => if σ1 (integKey p.1 p.2.Area) then some p.2.Area else acc) acc =
      l.foldl (fun acc p => if σ2 (integKey p.1 p.2.Area) then some p.2.Area else acc) acc := by
  induction l with
  | nil => intro acc; rfl
  | cons p l ih =>
    intro acc
    rw [List.foldl_cons, List.foldl_cons, h p (List.mem_cons_self p l)]
    exact ih (fun q hq => h q (List.mem_cons_of_mem p hq)) _

theorem selected_area_congr (σ1 σ2 : St) (h : ∀ k ∈ integKeys, σ1 k = σ2 k) :
    selected_area σ1 = selected_area σ2 := by
  unfold selected_area
  exact foldl_sel_congr _ _ _ (fun p hp => h _ (List.mem_map_of_mem _ hp)) none

/-- Sequentially writing a batch of integrity keys does not touch a key that
belongs to none of them. -/
theorem foldl_set_not_mem (l : List (Nat × IntegrityRow)) (σ : St)
    (f : Nat × IntegrityRow → Bool) (k : String)
    (h : ∀ p ∈ l, integKey p.1 p.2.Area ≠ k) :
    (l.foldl (fun s p => stSet s (integKey p.1 p.2.Area) (f p)) σ) k = σ k := by
  induction l generalizing σ with
  | nil => rfl
  | cons p l ih =>
    rw [List.foldl_cons]
    rw [ih _ fun q hq => h q (List.mem_cons_of_mem p hq)]
    exact stSet_other σ _ k _ fun hk => h p (List.mem_cons_self p l) hk.symm

/-- Sequentially writing a batch of pairwise-distinct integrity keys leaves,
at the key of each written row, exactly the value written for that row. -/
theorem foldl_set_mem (l : List (Nat × IntegrityRow)) (σ : St)
    (f : Nat × IntegrityRow → Bool) (p0 : Nat × IntegrityRow) (hp : p0 ∈ l)
    (hnd : (l.map fun p => integKey p.1 p.2.Area).Nodup) :
    (l.foldl (fun s p => stSet s (integKey p.1 p.2.Area) (f p)) σ)
      (integKey p0.1 p0.2.Area) = f p0 := by
  induction l generalizing σ with
  | nil => cases hp
  | cons p l ih =>
    rw [List.map_cons, List.nodup_cons] at hnd
    rcases List.mem_cons.mp hp with rfl | hp2
    · rw [List.foldl_cons]
      have hno : ∀ q ∈ l, integKey q.1 q.2.Area ≠ integKey p0.1 p0.2.Area := by
        intro q hq hk
        apply hnd.1
        rw [← hk]
        exact List.mem_map_of_mem _ hq
      rw [foldl_set_not_mem _ _ _ _ hno]
      exact stSet_self σ _ _
    · rw [List.foldl_cons]
      exact ih _ hp2 hnd.2

theorem integKeys_map_nodup :
    (INTEGRITY_ROWS.enum.map fun p => integKey p.1 p.2.Area).Nodup := integKeys_nodup

theorem clearSelection_get_mem (σ : St) (p : Nat × IntegrityRow)
    (hp : p ∈ INTEGRITY_ROWS.enum) :
    clearSelection σ (integKey p.1 p.2.Area) = false :=
  foldl_set_mem _ σ _ p hp integKeys_map_nodup

theorem clearSelection_get_not_mem (σ : St) (k : String) (h : k ∉ integKeys) :
    clearSelection σ k = σ k :=
  foldl_set_not_mem _ σ _ k fun _p hp hk => h (hk ▸ List.mem_map_of_mem _ hp)

theorem useRecommended_get_mem (σ : St) (rec : String) (p : Nat × IntegrityRow)
    (hp : p ∈ INTEGRITY_ROWS.enum) :
    useRecommended σ rec (integKey p.1 p.2.Area) = (p.2.Area == rec) :=
  foldl_set_mem _ σ _ p hp integKeys_map_nodup

theorem useRecommended_get_not_mem (σ : St) (rec : String) (k : String)
    (h : k ∉ integKeys) : useRecommended σ rec k = σ k :=
  foldl_set_not_mem _ σ _ k fun _p hp hk => h (hk ▸ List.mem_map_of_mem _ hp)

theorem toggleInteg_get_not_mem (σ : St) (area : String) (k : String)
    (h : k ∉ integKeys) : toggleInteg σ area k = σ k := by
  unfold toggleInteg
  cases hfind : INTEGRITY_ROWS.enum.find? (fun p => p.2.Area == area) with
  | none => rfl
  | some p =>
    have hp : p ∈ INTEGRITY_ROWS.enum := List.mem_of_find?_eq_some hfind
    exact stSet_other σ _ k _ fun hk => h (hk ▸ List.mem_map_of_mem _ hp)

theorem togglePlan_get_not_mem (σ : St) (gap : String) (k : String)
    (h : k ∉ planKeys) : togglePlan σ gap k = σ k := by
  unfold togglePlan
  cases hfind : PLAN_ROWS.enum.find? (fun p => p.2.Gap == gap) with
  | none => rfl
  | some p =>
    have hp : p ∈ PLAN_ROWS.enum := List.mem_of_find?_eq_some hfind
    exact stSet_other σ _ k _ fun hk => h (hk ▸ List.mem_map_of_mem _ hp)

theorem toggleInteg_unknown (σ : St) (area : String)
    (h : area ∉ INTEGRITY_ROWS.map fun r => r.Area) : toggleInteg σ area = σ := by
  unfold toggleInteg
  have hfind : INTEGRITY_ROWS.enum.find? (fun p => p.2.Area == area) = none := by
    rw [List.find?_eq_none]
    intro p hp hbeq
    exact h (beq_iff_eq.mp hbeq ▸ List.mem_map_of_mem _ (enum_snd_mem _ p hp))
  rw [hfind]

theorem togglePlan_unknown (σ : St) (gap : String)
    (h : gap ∉ PLAN_ROWS.map fun r => r.Gap) : togglePlan σ gap = σ := by
  unfold togglePlan
  have hfind : PLAN_ROWS.enum.find? (fun p => p.2.Gap == gap) = none := by
    rw [List.find?_eq_none]
    intro p hp hbeq
    exact h (beq_iff_eq.mp hbeq ▸ List.mem_map_of_mem _ (enum_snd_mem _ p hp))
  rw [hfind]

/-! ### Shape of the state after one run -/

theorem integ_map_enforce_plan (σ : St) :
    integKeys.map (enforceSingle σ planKeys) = integKeys.map σ :=
  List.map_congr_left fun k hk =>
    enforceSingle_not_mem _ planKeys k (integKeys_not_planKeys k hk)

theorem integ_filter_enforce_plan (σ : St) :
    integKeys.filter (enforceSingle σ planKeys) = integKeys.filter σ :=
  List.filter_congr fun k hk =>
    enforceSingle_not_mem _ planKeys k (integKeys_not_planKeys k hk)

/-- After one run, the plan group's checkbox values are exactly the
"first true kept, rest false" correction of the observed values. -/
theorem runScript_state_plan (σ : St) :
    planKeys.map (runScript σ).state = specKeepFirstTrue (planKeys.map σ) := by
  rw [runScript_state]
  have h1 : planKeys.map (enforceSingle (enforceSingle σ planKeys) integKeys) =
      planKeys.map (enforceSingle σ planKeys) :=
    List.map_congr_left fun k hk =>
      enforceSingle_not_mem _ integKeys k (planKeys_not_integKeys k hk)
  rw [h1, enforceSingle_map planKeys σ planKeys_nodup]

/-- After one run, the integrity group's checkbox values are exactly the
"first true kept, rest false" correction of the observed values. -/
theorem runScript_state_integ (σ : St) :
    integKeys.map (runScript σ).state = specKeepFirstTrue (integKeys.map σ) := by
  rw [runScript_state, enforceSingle_map integKeys _ integKeys_nodup,
    integ_map_enforce_plan]

theorem runScript_integ_conflict_eq (σ : St) :
    (runScript σ).integ_conflict = decide (1 < (integKeys.filter σ).length) := by
  rw [runScript_integ_conflict, integ_filter_enforce_plan]

theorem filter_length_eq_map (keys : List String) (σ : St) :
    (keys.filter σ).length = ((keys.map σ).filter id).length := by
  induction keys with
  | nil => rfl
  | cons c keys ih => cases hσc : σ c <;> simp [List.filter_cons, hσc, ih, id]

theorem specKeepFirstTrue_le_one (bs : List Bool) :
    ((specKeepFirstTrue bs).filter id).length ≤ 1 := by
  induction bs with
  | nil => simp [specKeepFirstTrue]
  | cons b bs ih =>
    cases b with
    | true => simp [specKeepFirstTrue, map_all_false]
    | false => simpa [specKeepFirstTrue] using ih

/-- After one run, at most one integrity checkbox is set. -/
theorem runScript_integ_count (σ : St) :
    (integKeys.filter (runScript σ).state).length ≤ 1 := by
  rw [filter_length_eq_map, runScript_state_integ]
  exact specKeepFirstTrue_le_one _

/-- After one run, at most one plan checkbox is set. -/
theorem runScript_plan_count (σ : St) :
    (planKeys.filter (runScript σ).state).length ≤ 1 := by
  rw [filter_length_eq_map, runScript_state_plan]
  exact specKeepFirstTrue_le_one _

/-! ### Which values the two read-outs can produce -/

theorem foldl_sel_shape (l : List (Nat × IntegrityRow)) (σ : St) (acc : Option String)
    (hacc : acc = none ∨ ∃ r ∈ INTEGRITY_ROWS, acc = some r.Area)
    (hl : ∀ p ∈ l, p.2 ∈ INTEGRITY_ROWS) :
    (l.foldl (fun acc p => if σ (integKey p.1 p.2.Area) then some p.2.Area else acc) acc)
      = none ∨
    ∃ r ∈ INTEGRITY_ROWS,
      (l.foldl (fun acc p => if σ (integKey p.1 p.2.Area) then some p.2.Area else acc) acc)
        = some r.Area := by
  induction l generalizing acc with
  | nil => exact hacc
  | cons p l ih =>
    rw [List.foldl_cons]
    refine ih _ ?_ fun q hq => hl q (List.mem_cons_of_mem p hq)
    by_cases hσ : σ (integKey p.1 p.2.Area) = true
    · exact Or.inr ⟨p.2, hl p (List.mem_cons_self p l), by simp [hσ]⟩
    · simpa [hσ] using hacc

theorem selected_area_shape (σ : St) :
    selected_area σ = none ∨
      ∃ r ∈ INTEGRITY_ROWS, selected_area σ = some r.Area := by
  unfold selected_area
  exact foldl_sel_shape _ σ none (Or.inl rfl) fun p hp => enum_snd_mem _ p hp

theorem plan_selected_shape (σ : St) :
    plan_selected σ = none ∨ ∃ r ∈ PLAN_ROWS, plan_selected σ = some r := by
  unfold plan_selected
  cases hfind : PLAN_ROWS.enum.find? (fun p => σ (planKey p.1 p.2.Gap)) with
  | none => exact Or.inl rfl
  | some p =>
    exact Or.inr ⟨p.2, enum_snd_mem _ p (List.mem_of_find?_eq_some hfind), rfl⟩

theorem selected_area_mem (σ : St) :
    selected_area σ ∈ ((none : Option String) :: INTEGRITY_ROWS.map fun r => some r.Area) := by
  rcases selected_area_shape σ with h | ⟨r, hr, h⟩
  · rw [h]; exact List.mem_cons_self _ _
  · rw [h]; exact List.mem_cons_of_mem _ (List.mem_map_of_mem _ hr)

theorem plan_selected_mem (σ : St) :
    plan_selected σ ∈ ((none : Option PlanRow) :: PLAN_ROWS.map some) := by
  rcases plan_selected_shape σ with h | ⟨r, hr, h⟩
  · rw [h]; exact List.mem_cons_self _ _
  · rw [h]; exact List.mem_cons_of_mem _ (List.mem_map_of_mem _ hr)

theorem lookup_mem_own (l : List (String × String)) (a b : String)
    (h : l.lookup a = some b) : (a, b) ∈ l := by
  induction l with
  | nil => cases h
  | cons p l ih =>
    rcases p with ⟨k, v⟩
    simp only [List.lookup] at h
    cases hbeq : (a == k) with
    | true =>
      rw [hbeq] at h
      have ha : a = k := beq_iff_eq.mp hbeq
      subst ha
      injection h with h2
      subst h2
      exact List.mem_cons_self _ _
    | false =>
      rw [hbeq] at h
      exact List.mem_cons_of_mem _ (ih h)

theorem lookupRecommended_eq_none (g : String)
    (hg : g ∉ RECOMMENDED_INTEGRITY.map Prod.fst) : lookupRecommended g = none := by
  unfold lookupRecommended
  cases hy : RECOMMENDED_INTEGRITY.lookup g with
  | none => rfl
  | some y =>
    exact absurd (List.mem_map_of_mem _ (lookup_mem_own _ g y hy)) hg

theorem enforce_congr (keys : List String) (σ1 σ2 : St)
    (h : ∀ k ∈ keys, σ1 k = σ2 k) :
    ∀ k ∈ keys, enforceSingle σ1 keys k = enforceSingle σ2 keys k := by
  intro k hk
  rw [enforceSingle_get, enforceSingle_get, List.filter_congr h, h k hk]

/-! ### The state machine driven by user interactions

After every widget interaction Streamlit reruns the whole script, so each
user-level operation is a session-state write followed by `runScript`. -/

/-- The user-level operations of the spec's state machine: toggling one
checkbox of either group, replacing a group's whole observed batch, and the
two integrity-group buttons.  `useRecOp` is guarded the way the button is
(disabled unless a recommendation exists). -/
inductive GOp where
  | togglePlanOp (gap : String)
  | toggleIntegOp (area : String)
  | observePlanOp (bs : List Bool)
  | observeIntegOp (bs : List Bool)
  | clearOp
  | useRecOp

/-- Apply one operation: perform its session-state write, then rerun the
script and keep the resulting state. -/
def applyOp (σ : St) : GOp → St
  | GOp.togglePlanOp g => (runScript (togglePlan σ g)).state
  | GOp.toggleIntegOp a => (runScript (toggleInteg σ a)).state
  | GOp.observePlanOp bs => (runScript (writeBatch σ planKeys bs)).state
  | GOp.observeIntegOp bs => (runScript (writeBatch σ integKeys bs)).state
  | GOp.clearOp => (runScript (clearSelection σ)).state
  | GOp.useRecOp => (runScript (match (runScript σ).recommended_area with
      | some r => useRecommended σ r
      | none => σ)).state

/-- Apply a sequence of operations in order. -/
def applyOps (ops : List GOp) (σ : St) : St := ops.foldl applyOp σ

theorem applyOps_counts (ops : List GOp) (σ : St)
    (h : (integKeys.filter σ).length ≤ 1 ∧ (planKeys.filter σ).length ≤ 1) :
    (integKeys.filter (applyOps ops σ)).length ≤ 1 ∧
      (planKeys.filter (applyOps ops σ)).length ≤ 1 := by
  induction ops generalizing σ with
  | nil => exact h
  | cons op ops ih =>
    have hstep : (integKeys.filter (applyOp σ op)).length ≤ 1 ∧
        (planKeys.filter (applyOp σ op)).length ≤ 1 := by
      cases op <;> exact ⟨runScript_integ_count _, runScript_plan_count _⟩
    exact ih _ hstep

/-! ### The claims -/

/-- C1 (counterexample): the claim says that when a batch reports several
options true, the resolved selection is the first option in the fixed
ordering that reports true — for the integrity-focus group as well.  But in
the run that observes the conflicted batch, the integrity group's resolved
selection `p2_integrity` is computed from `selected_area`, which the loop
sets to the *last* checked row before the correction happens: with rows 0
and 1 both checked, the run reports "Access Tracking (Audit Logs)" (row 1),
not the first true option "Data Accuracy (Integrity)" (row 0), even though
the conflict is flagged and the stored state keeps only row 0. -/
theorem claim_C1_counterexample :
    (runScript (stSet (stSet initState "p2_integrity_0_Data_Accuracy_Integrity_" true)
        "p2_integrity_1_Access_Tracking_Audit_Logs_" true)).integ_conflict = true ∧
    (runScript (stSet (stSet initState "p2_integrity_0_Data_Accuracy_Integrity_" true)
        "p2_integrity_1_Access_Tracking_Audit_Logs_" true)).selected_area =
      some "Access Tracking (Audit Logs)" ∧
    (runScript (stSet (stSet initState "p2_integrity_0_Data_Accuracy_Integrity_" true)
        "p2_integrity_1_Access_Tracking_Audit_Logs_" true)).p2_integrity =
      "Access Tracking (Audit Logs)" ∧
    (INTEGRITY_ROWS.map fun r => r.Area) =
      ["Data Accuracy (Integrity)", "Access Tracking (Audit Logs)",
       "Error Detection & Alerts", "Patient Identity Management (MPI)"] ∧
    (runScript (stSet (stSet initState "p2_integrity_0_Data_Accuracy_Integrity_" true)
        "p2_integrity_1_Access_Tracking_Audit_Logs_" true)).p2_integrity ≠
      "Data Accuracy (Integrity)" ∧
    integKeys.map (runScript (stSet (stSet initState "p2_integrity_0_Data_Accuracy_Integrity_" true)
        "p2_integrity_1_Access_Tracking_Audit_Logs_" true)).state =
      [true, false, false, false] := by
  refine ⟨by decide, by decide, by decide, by decide, by decide, by decide⟩

/-- C1 (amended): when an observation batch reports more than one option as
true, both groups flag the conflict and correct the stored checkbox state to
keep only the first true option in the group's fixed ordering, forcing every
other option in that batch to false; the plan group's reported selection in
that same run is that first true option, but the integrity group's reported
selection (`p2_integrity`) in that same run is the *last* true option in the
fixed ordering — the corrected first option only takes effect from the next
rerun.  A batch with positions 2 and 5 true cannot occur (the groups have 5
and 4 options); for batches with exactly positions 2 and 3 true, the plan
group reports position 2 with conflict = true, while the integrity group
stores position 2 with conflict = true but reports position 3 in that run. -/
theorem claim_C1_amended :
    (∀ σ : St, planKeys.map (runScript σ).state = specKeepFirstTrue (planKeys.map σ)) ∧
    (∀ σ : St, integKeys.map (runScript σ).state = specKeepFirstTrue (integKeys.map σ)) ∧
    (∀ σ : St, (runScript σ).plan_conflict = decide (1 < (planKeys.filter σ).length)) ∧
    (∀ σ : St, (runScript σ).integ_conflict = decide (1 < (integKeys.filter σ).length)) ∧
    ((runScript (stSet (stSet initState "plan_row_2_Missing_Clinical_Context" true)
        "plan_row_3_No_FHIR_Connection" true)).plan_conflict = true ∧
     ((runScript (stSet (stSet initState "plan_row_2_Missing_Clinical_Context" true)
        "plan_row_3_No_FHIR_Connection" true)).plan_selected).map (fun r => r.Gap) =
       some "Missing Clinical Context" ∧
     planKeys.map (runScript (stSet (stSet initState "plan_row_2_Missing_Clinical_Context" true)
        "plan_row_3_No_FHIR_Connection" true)).state =
       [false, false, true, false, false]) ∧
    ((runScript (stSet (stSet initState "p2_integrity_2_Error_Detection_Alerts" true)
        "p2_integrity_3_Patient_Identity_Management_MPI_" true)).integ_conflict = true ∧
     integKeys.map (runScript (stSet (stSet initState "p2_integrity_2_Error_Detection_Alerts" true)
        "p2_integrity_3_Patient_Identity_Management_MPI_" true)).state =
       [false, false, true, false] ∧
     (runScript (stSet (stSet initState "p2_integrity_2_Error_Detection_Alerts" true)
        "p2_integrity_3_Patient_Identity_Management_MPI_" true)).p2_integrity =
       "Patient Identity Management (MPI)") :=
  ⟨runScript_state_plan, runScript_state_integ,
   runScript_plan_conflict, runScript_integ_conflict_eq,
   ⟨by decide, by decide, by decide⟩, ⟨by decide, by decide, by decide⟩⟩

/-- C2: for every sequence of toggle / batch-observation / clear /
use-recommended operations starting from the fresh session, at most one
checkbox of each group is set, and each group's current selection read-out is
either empty or one valid identifier of that group's fixed option list. -/
theorem claim_C2_single_selection_invariant (ops : List GOp) :
    (integKeys.filter (applyOps ops initState)).length ≤ 1 ∧
    (planKeys.filter (applyOps ops initState)).length ≤ 1 ∧
    selected_area (applyOps ops initState) ∈
      ((none : Option String) :: INTEGRITY_ROWS.map fun r => some r.Area) ∧
    plan_selected (applyOps ops initState) ∈
      ((none : Option PlanRow) :: PLAN_ROWS.map some) := by
  have h := applyOps_counts ops initState ⟨by decide, by decide⟩
  exact ⟨h.1, h.2, selected_area_mem _, plan_selected_mem _⟩

/-- C3: the effective selection `p2_integrity` equals the current selection
when one is set, regardless of the recommendation, and otherwise falls back
to the recommendation computed from the plan group's selection (or the
placeholder when no recommendation applies). -/
theorem claim_C3_effective_selection (σ : St) :
    ((runScript σ).selected_area = none →
      (runScript σ).p2_integrity = ((runScript σ).recommended_area).getD "— select —") ∧
    (∀ X, (runScript σ).selected_area = some X → (runScript σ).p2_integrity = X) := by
  constructor
  · intro h
    rw [runScript_p2_integrity, h]
    rfl
  · intro X h
    rw [runScript_p2_integrity, h]
    rfl

/-- C3 witness: with integrity row 0 checked the run reports that row; with
only plan row 0 checked (current selection empty, rule maps "Data Silos" to
"Access Tracking (Audit Logs)") the run reports the recommendation. -/
theorem claim_C3_effective_selection_witness :
    (runScript (stSet initState "p2_integrity_0_Data_Accuracy_Integrity_" true)).p2_integrity =
      "Data Accuracy (Integrity)" ∧
    (runScript (stSet initState "plan_row_0_Data_Silos" true)).p2_integrity =
      "Access Tracking (Audit Logs)" :=
  ⟨(claim_C3_effective_selection _).2 _ (by decide),
   ((claim_C3_effective_selection _).1 (by decide)).trans (by decide)⟩

/-- C4: pressing "Use recommended" with a recommendation id from the rule
table checks exactly the recommended row and unchecks every other row,
whatever the previous state was; the following rerun reports exactly that
selection. -/
theorem claim_C4_use_recommended (σ : St) (rec : String)
    (h : rec ∈ RECOMMENDED_INTEGRITY.map Prod.snd) :
    integKeys.map (useRecommended σ rec) = (INTEGRITY_ROWS.map fun r => r.Area == rec) ∧
    (runScript (useRecommended σ rec)).selected_area = some rec ∧
    (runScript (useRecommended σ rec)).p2_integrity = rec := by
  have hmap : integKeys.map (useRecommended σ rec) =
      (INTEGRITY_ROWS.map fun r => r.Area == rec) := by
    unfold integKeys
    rw [List.map_map]
    calc INTEGRITY_ROWS.enum.map
          ((useRecommended σ rec) ∘ fun p => integKey p.1 p.2.Area)
        = INTEGRITY_ROWS.enum.map (fun p => p.2.Area == rec) :=
          List.map_congr_left fun p hp => useRecommended_get_mem σ rec p hp
      _ = (INTEGRITY_ROWS.enum.map Prod.snd).map (fun r => r.Area == rec) := by
          rw [List.map_map]; rfl
      _ = INTEGRITY_ROWS.map fun r => r.Area == rec := by rw [List.enum_map_snd]
  have hsel : (runScript (useRecommended σ rec)).selected_area =
      selected_area (useRecommended initState rec) := by
    rw [runScript_selected_area]
    have h1 : selected_area (enforceSingle (useRecommended σ rec) planKeys) =
        selected_area (useRecommended σ rec) :=
      selected_area_congr _ _ fun k hk =>
        enforceSingle_not_mem _ planKeys k (integKeys_not_planKeys k hk)
    rw [h1]
    apply selected_area_congr
    intro k hk
    rcases List.mem_map.mp hk with ⟨p, hp, rfl⟩
    rw [useRecommended_get_mem σ rec p hp, useRecommended_get_mem initState rec p hp]
  have hconc : selected_area (useRecommended initState rec) = some rec := by
    have h2 := h
    simp only [RECOMMENDED_INTEGRITY, List.map_cons, List.map_nil, List.mem_cons,
      List.not_mem_nil, or_false] at h2
    rcases h2 with rfl | rfl | rfl | rfl | rfl
    · decide
    · decide
    · decide
    · decide
    · decide
  refine ⟨hmap, hsel.trans hconc, ?_⟩
  rw [runScript_p2_integrity, hsel.trans hconc]
  rfl

/-- C4 witness: from a state where every integrity checkbox is set, pressing
"Use recommended" for the table value "Error Detection & Alerts" yields
exactly that selection. -/
theorem claim_C4_use_recommended_witness :
    "Error Detection & Alerts" ∈ RECOMMENDED_INTEGRITY.map Prod.snd ∧
    integKeys.map (useRecommended (fun _ => true) "Error Detection & Alerts") =
      (INTEGRITY_ROWS.map fun r => r.Area == "Error Detection & Alerts") ∧
    (runScript (useRecommended (fun _ => true) "Error Detection & Alerts")).p2_integrity =
      "Error Detection & Alerts" :=
  ⟨by decide,
   (claim_C4_use_recommended (fun _ => true) "Error Detection & Alerts" (by decide)).1,
   (claim_C4_use_recommended (fun _ => true) "Error Detection & Alerts" (by decide)).2.2⟩

/-- C5: pressing "Clear selection" from any state unchecks every integrity
checkbox; the following rerun reads an empty current selection and the
effective selection falls back to the recommendation when one applies and to
the placeholder otherwise, the recommendation being unchanged by the clear. -/
theorem claim_C5_clear_selection (σ : St) :
    integKeys.map (clearSelection σ) = [false, false, false, false] ∧
    (runScript (clearSelection σ)).selected_area = none ∧
    (runScript (clearSelection σ)).p2_integrity =
      ((runScript (clearSelection σ)).recommended_area).getD "— select —" ∧
    (runScript (clearSelection σ)).recommended_area = (runScript σ).recommended_area := by
  have hmap : integKeys.map (clearSelection σ) = [false, false, false, false] := by
    unfold integKeys
    rw [List.map_map]
    calc INTEGRITY_ROWS.enum.map ((clearSelection σ) ∘ fun p => integKey p.1 p.2.Area)
        = INTEGRITY_ROWS.enum.map (fun _ => false) :=
          List.map_congr_left fun p hp => clearSelection_get_mem σ p hp
      _ = [false, false, false, false] := by decide
  have hsel : (runScript (clearSelection σ)).selected_area = none := by
    rw [runScript_selected_area]
    have h1 : selected_area (enforceSingle (clearSelection σ) planKeys) =
        selected_area (clearSelection σ) :=
      selected_area_congr _ _ fun k hk =>
        enforceSingle_not_mem _ planKeys k (integKeys_not_planKeys k hk)
    have h2 : selected_area (clearSelection σ) = selected_area initState := by
      apply selected_area_congr
      intro k hk
      rcases List.mem_map.mp hk with ⟨p, hp, rfl⟩
      rw [clearSelection_get_mem σ p hp]
      rfl
    rw [h1, h2]
    decide
  have hrec : (runScript (clearSelection σ)).recommended_area =
      (runScript σ).recommended_area := by
    rw [runScript_recommended_area, runScript_recommended_area]
    apply recommended_area_congr
    exact enforce_congr planKeys _ _ fun k hk =>
      clearSelection_get_not_mem σ k (planKeys_not_integKeys k hk)
  refine ⟨hmap, hsel, ?_, hrec⟩
  rw [runScript_p2_integrity, hsel]
  rfl

/-- C6: the recommendation lookup is a pure function of the rule table and
the other group's selected identifier: a mapped value is always one of the
integrity group's identifiers and comes from the table, a key outside the
table maps to empty, and an empty plan selection yields an empty
recommendation. -/
theorem claim_C6_recommendation_lookup (g : String) :
    (∀ y, lookupRecommended g = some y →
      (y ∈ INTEGRITY_ROWS.map fun r => r.Area) ∧ (g, y) ∈ RECOMMENDED_INTEGRITY) ∧
    (g ∉ RECOMMENDED_INTEGRITY.map Prod.fst → lookupRecommended g = none) ∧
    (∀ σ : St, plan_selected σ = none → recommended_area σ = none) := by
  refine ⟨?_, lookupRecommended_eq_none g, ?_⟩
  · intro y hy
    have hmem : (g, y) ∈ RECOMMENDED_INTEGRITY := lookup_mem_own _ g y hy
    refine ⟨?_, hmem⟩
    have h2 : y ∈ RECOMMENDED_INTEGRITY.map Prod.snd := List.mem_map_of_mem _ hmem
    simp only [RECOMMENDED_INTEGRITY, List.map_cons, List.map_nil, List.mem_cons,
      List.not_mem_nil, or_false] at h2
    rcases h2 with rfl | rfl | rfl | rfl | rfl
    · decide
    · decide
    · decide
    · decide
    · decide
  · intro σ h
    unfold recommended_area
    rw [h]

/-- C6 witness: the table maps "Data Silos" to a valid integrity identifier,
an unknown key looks up to empty, and the fresh state (no plan selection)
yields an empty recommendation. -/
theorem claim_C6_recommendation_lookup_witness :
    (("Access Tracking (Audit Logs)" ∈ INTEGRITY_ROWS.map fun r => r.Area) ∧
      ("Data Silos", "Access Tracking (Audit Logs)") ∈ RECOMMENDED_INTEGRITY) ∧
    lookupRecommended "unknown-gap" = none ∧
    recommended_area initState = none :=
  ⟨(claim_C6_recommendation_lookup "Data Silos").1 _ (by decide),
   (claim_C6_recommendation_lookup "unknown-gap").2.1 (by decide),
   (claim_C6_recommendation_lookup "x").2.2 initState (by decide)⟩

/-- C7: a toggle naming an identifier outside the group's fixed option list
writes nothing (there is no such checkbox), so the session state and both
groups' current selections are unchanged, and a recommendation lookup from a
key outside the rule table returns empty; no operation raises. -/
theorem claim_C7_unknown_identifier_noop (σ : St) (x : String)
    (hi : x ∉ INTEGRITY_ROWS.map fun r => r.Area)
    (hp : x ∉ PLAN_ROWS.map fun r => r.Gap)
    (hg : x ∉ RECOMMENDED_INTEGRITY.map Prod.fst) :
    toggleInteg σ x = σ ∧ togglePlan σ x = σ ∧ lookupRecommended x = none ∧
    selected_area (toggleInteg σ x) = selected_area σ ∧
    plan_selected (togglePlan σ x) = plan_selected σ := by
  refine ⟨toggleInteg_unknown σ x hi, togglePlan_unknown σ x hp,
    lookupRecommended_eq_none x hg, ?_, ?_⟩
  · rw [toggleInteg_unknown σ x hi]
  · rw [togglePlan_unknown σ x hp]

/-- C7 witness: toggling the unknown identifier "nonexistent-id" on the
fresh state changes nothing and its recommendation lookup is empty. -/
theorem claim_C7_unknown_identifier_noop_witness :
    toggleInteg initState "nonexistent-id" = initState ∧
    lookupRecommended "nonexistent-id" = none :=
  ⟨(claim_C7_unknown_identifier_noop initState "nonexistent-id"
      (by decide) (by decide) (by decide)).1,
   (claim_C7_unknown_identifier_noop initState "nonexistent-id"
      (by decide) (by decide) (by decide)).2.2.1⟩

/-- C8: at export time a group whose effective selection is empty (no
selection and no applicable recommendation) prints the em-dash placeholder
"—", and a non-empty selection is embedded unchanged; the export is total. -/
theorem claim_C8_export_placeholder (σ : St) :
    ((runScript σ).selected_area = none → (runScript σ).recommended_area = none →
      sel_or_dash (runScript σ).p2_integrity = "—") ∧
    ((runScript σ).plan_selected = none → sel_or_dash (exportPlanGap σ) = "—") ∧
    (∀ a, (runScript σ).selected_area = some a →
      sel_or_dash (runScript σ).p2_integrity = a) ∧
    (∀ row, (runScript σ).plan_selected = some row →
      sel_or_dash (exportPlanGap σ) = row.Gap) := by
  refine ⟨?_, ?_, ?_, ?_⟩
  · intro h1 h2
    rw [runScript_p2_integrity, h1, h2]
    decide
  · intro h
    unfold exportPlanGap
    rw [h]
    decide
  · intro a ha
    have ha2 : selected_area (enforceSingle σ planKeys) = some a := by
      rw [← runScript_selected_area]; exact ha
    rcases selected_area_shape (enforceSingle σ planKeys) with h0 | ⟨r, hr, h0⟩
    · rw [ha2] at h0; cases h0
    · rw [ha2] at h0
      injection h0 with h0
      rw [runScript_p2_integrity, ha]
      show sel_or_dash a = a
      rw [h0]
      fin_cases hr <;> decide
  · intro row h
    have h2 : plan_selected (enforceSingle σ planKeys) = some row := by
      rw [← runScript_plan_selected]; exact h
    rcases plan_selected_shape (enforceSingle σ planKeys) with h0 | ⟨r, hr, h0⟩
    · rw [h2] at h0; cases h0
    · rw [h2] at h0
      injection h0 with h0
      subst h0
      unfold exportPlanGap
      rw [h]
      show sel_or_dash row.Gap = row.Gap
      fin_cases hr <;> decide

/-- C8 witness: the fresh state exports "—" for both groups, and a state
with integrity row 2 checked exports that row's identifier unchanged. -/
theorem claim_C8_export_placeholder_witness :
    sel_or_dash (runScript initState).p2_integrity = "—" ∧
    sel_or_dash (exportPlanGap initState) = "—" ∧
    sel_or_dash (runScript (stSet initState "p2_integrity_2_Error_Detection_Alerts"
      true)).p2_integrity = "Error Detection & Alerts" :=
  ⟨(claim_C8_export_placeholder initState).1 (by decide) (by decide),
   (claim_C8_export_placeholder initState).2.1 (by decide),
   (claim_C8_export_placeholder _).2.2.1 _ (by decide)⟩

/-- C9: no operation of one group writes the other group's keys — the
integrity-group updates (clear, use-recommended, toggle, single-select
enforcement) leave every non-integrity key unchanged, the plan-group updates
leave every non-plan key unchanged, the two key sets are disjoint, and the
only cross-group dependency is read-only: the recommendation is a function
of the plan keys' values alone. -/
theorem claim_C9_frame_separation (σ : St) (k : String) :
    (k ∉ integKeys →
      clearSelection σ k = σ k ∧ (∀ rec, useRecommended σ rec k = σ k) ∧
      (∀ a, toggleInteg σ a k = σ k) ∧ enforceSingle σ integKeys k = σ k) ∧
    (k ∉ planKeys →
      (∀ g, togglePlan σ g k = σ k) ∧ enforceSingle σ planKeys k = σ k) ∧
    (∀ k2 ∈ planKeys, k2 ∉ integKeys) ∧
    (∀ σ2 : St, (∀ k2 ∈ planKeys, σ k2 = σ2 k2) →
      (runScript σ).recommended_area = (runScript σ2).recommended_area) := by
  refine ⟨?_, ?_, planKeys_not_integKeys, ?_⟩
  · intro hk
    exact ⟨clearSelection_get_not_mem σ k hk,
      fun rec => useRecommended_get_not_mem σ rec k hk,
      fun a => toggleInteg_get_not_mem σ a k hk,
      enforceSingle_not_mem σ integKeys k hk⟩
  · intro hk
    exact ⟨fun g => togglePlan_get_not_mem σ g k hk,
      enforceSingle_not_mem σ planKeys k hk⟩
  · intro σ2 hagree
    rw [runScript_recommended_area, runScript_recommended_area]
    exact recommended_area_congr _ _ (enforce_congr planKeys _ _ hagree)

/-- C9 witness: clearing the integrity group leaves a plan key unchanged,
toggling a plan row leaves an integrity key unchanged, and two states that
agree on the plan keys yield the same recommendation. -/
theorem claim_C9_frame_separation_witness :
    clearSelection initState "plan_row_0_Data_Silos" = initState "plan_row_0_Data_Silos" ∧
    togglePlan initState "Data Silos" "p2_integrity_0_Data_Accuracy_Integrity_" =
      initState "p2_integrity_0_Data_Accuracy_Integrity_" ∧
    (runScript initState).recommended_area = (runScript initState).recommended_area :=
  ⟨((claim_C9_frame_separation initState "plan_row_0_Data_Silos").1 (by decide)).1,
   ((claim_C9_frame_separation initState
      "p2_integrity_0_Data_Accuracy_Integrity_").2.1 (by decide)).1 "Data Silos",
   (claim_C9_frame_separation initState "x").2.2.2 initState fun _ _ => rfl⟩

/-- C10: the rule table is total over the plan group and valid for the
integrity group — every plan gap is a key of the table, every table value is
an integrity area — and therefore whenever a plan row is selected the run
produces a non-empty, valid recommendation. -/
theorem claim_C10_rule_totality :
    (∀ r ∈ PLAN_ROWS, (lookupRecommended r.Gap).isSome = true) ∧
    (∀ p ∈ RECOMMENDED_INTEGRITY, p.2 ∈ INTEGRITY_ROWS.map fun r => r.Area) ∧
    (∀ σ : St, ∀ row, (runScript σ).plan_selected = some row →
      ∃ y, (runScript σ).recommended_area = some y ∧
        y ∈ INTEGRITY_ROWS.map fun r => r.Area) := by
  refine ⟨by decide, by decide, ?_⟩
  intro σ row h
  have h2 : plan_selected (enforceSingle σ planKeys) = some row := by
    rw [← runScript_plan_selected]; exact h
  have hrow : row ∈ PLAN_ROWS := by
    rcases plan_selected_shape (enforceSingle σ planKeys) with h0 | ⟨r, hr, h0⟩
    · rw [h2] at h0; cases h0
    · rw [h2] at h0
      injection h0 with h0
      subst h0
      exact hr
  rw [runScript_recommended_area]
  unfold recommended_area
  rw [h2]
  fin_cases hrow
  · exact ⟨"Access Tracking (Audit Logs)", by decide, by decide⟩
  · exact ⟨"Patient Identity Management (MPI)", by decide, by decide⟩
  · exact ⟨"Data Accuracy (Integrity)", by decide, by decide⟩
  · exact ⟨"Error Detection & Alerts", by decide, by decide⟩
  · exact ⟨"Data Accuracy (Integrity)", by decide, by decide⟩

/-- C10 witness: "Data Silos" has a recommendation, and selecting plan row 0
yields a non-empty valid recommendation after the rerun. -/
theorem claim_C10_rule_totality_witness :
    (lookupRecommended "Data Silos").isSome = true ∧
    ∃ y, (runScript (stSet initState "plan_row_0_Data_Silos" true)).recommended_area =
        some y ∧ y ∈ INTEGRITY_ROWS.map fun r => r.Area :=
  ⟨claim_C10_rule_totality.1 (PLAN_ROWS.get ⟨0, by decide⟩) (by decide),
   claim_C10_rule_totality.2.2 _ (PLAN_ROWS.get ⟨0, by decide⟩) (by decide)⟩
